import Mathlib

/-!
Shallow embedding of the tambour coordination layer (src/tambour/lock.py,
events.py, config.py, health.py, agent.py) together with proofs settling the
frozen claims about it.

Modelling conventions:
* Python exceptions are represented by the `PyErr` type; fallible Python code
  becomes `Except PyErr _`.  An exception type appears in `PyErr` only when some
  modelled code can raise or catch it.
* `json.dumps` / `json.loads` (external library) are modelled as the identity
  codec on JSON values: a stored blob carries the JSON value directly, and a
  blob whose text would not parse carries `.error .jsonDecodeError`.  All JSON
  values that the modelled code produces or inspects are flat objects of
  scalars, so `JDict` (an association list of scalar values) suffices.
* `datetime` is modelled concretely: `DateTime` carries the calendar fields and
  an optional UTC offset in minutes; `isoformat` / `fromisochars` are concrete
  printer and parser for the format `datetime.isoformat` emits.
* Machine integers do not overflow in any modelled code path, so `Nat`/`Int`
  are used directly.
-/

namespace Tambour

/-- Flat JSON scalar values (all JSON handled by the modelled code is a flat
object of scalars). -/
inductive JVal where
  | str (s : String)
  | num (n : Int)
  | bool (b : Bool)
  | null
deriving DecidableEq

/-- A JSON object: association list from keys to scalar values (Python dicts
have unique keys). -/
abbrev JDict := List (String × JVal)

/-- Python exception classes appearing in the modelled code. -/
inductive PyErr where
  | jsonDecodeError
  | keyError
  | valueError
  | typeError
  | attributeError
  | osError
deriving DecidableEq

instance {ε α : Type} [DecidableEq ε] [DecidableEq α] : DecidableEq (Except ε α) := by
  intro a b
  cases a <;> cases b <;> first
    | (apply isFalse; intro h; exact Except.noConfusion h)
    | (rename_i x y
       exact if h : x = y then isTrue (by rw [h]) else isFalse (by intro hc; cases hc; exact h rfl))

/-- Python truthiness for JSON scalar values (`if timestamp_str:`). -/
def truthy : JVal → Bool
  | .str s => s ≠ ""
  | .num n => n ≠ 0
  | .bool b => b
  | .null => false

/-- `data[k]` on a dict: the value, or a raised `KeyError`. -/
def JDict.item (d : JDict) (k : String) : Except PyErr JVal :=
  match d.lookup k with
  | some v => .ok v
  | none => .error .keyError

/-! ## datetime -/

/-- A `datetime.datetime` value: calendar fields plus an optional UTC offset in
minutes (`none` = naive). -/
structure DateTime where
  year : Nat
  month : Nat
  day : Nat
  hour : Nat
  minute : Nat
  second : Nat
  usec : Nat
  offset : Option Int
deriving DecidableEq

def isLeap (y : Nat) : Bool := y % 4 = 0 && (y % 100 ≠ 0 || y % 400 = 0)

def daysInMonth (y m : Nat) : Nat :=
  if m = 2 then (if isLeap y then 29 else 28)
  else if m = 4 || m = 6 || m = 9 || m = 11 then 30
  else 31

/-- The field ranges `datetime` enforces (year 1..9999, valid calendar day,
offset strictly within a day). -/
def DateTime.valid (d : DateTime) : Bool :=
  1 ≤ d.year && d.year ≤ 9999 && 1 ≤ d.month && d.month ≤ 12 &&
  1 ≤ d.day && d.day ≤ daysInMonth d.year d.month &&
  d.hour ≤ 23 && d.minute ≤ 59 && d.second ≤ 59 && d.usec ≤ 999999 &&
  (match d.offset with
   | none => true
   | some o => o.natAbs ≤ 1439)

def dChar (n : Nat) : Char := Char.ofNat (48 + n)

def dVal (c : Char) : Nat := c.toNat - 48

def isDig (c : Char) : Bool := 48 ≤ c.toNat && c.toNat ≤ 57

def pad2 (n : Nat) : List Char := [dChar (n / 10), dChar (n % 10)]

def pad4 (n : Nat) : List Char :=
  [dChar (n / 1000), dChar (n / 100 % 10), dChar (n / 10 % 10), dChar (n % 10)]

def pad6 (n : Nat) : List Char :=
  [dChar (n / 100000), dChar (n / 10000 % 10), dChar (n / 1000 % 10),
   dChar (n / 100 % 10), dChar (n / 10 % 10), dChar (n % 10)]

/-- The fractional-seconds part of `datetime.isoformat()` (printed only when
microseconds are nonzero). -/
def fracChars (usec : Nat) : List Char :=
  if usec = 0 then [] else '.' :: pad6 usec

/-- The UTC-offset suffix of `datetime.isoformat()`. -/
def offChars : Option Int → List Char
  | none => []
  | some o =>
      (if 0 ≤ o then '+' else '-') :: pad2 (o.natAbs / 60) ++ ':' :: pad2 (o.natAbs % 60)

/-- `datetime.isoformat()` as a character list. -/
def isoChars (d : DateTime) : List Char :=
  pad4 d.year ++ '-' :: pad2 d.month ++ '-' :: pad2 d.day ++
  'T' :: pad2 d.hour ++ ':' :: pad2 d.minute ++ ':' :: pad2 d.second ++
  fracChars d.usec ++ offChars d.offset

/-- `datetime.isoformat()`. -/
def isoformat (d : DateTime) : String := ⟨isoChars d⟩

def parse2 (a b : Char) : Option Nat :=
  if isDig a && isDig b then some (10 * dVal a + dVal b) else none

def parse4 (a b c d : Char) : Option Nat :=
  if isDig a && isDig b && isDig c && isDig d then
    some (1000 * dVal a + 100 * dVal b + 10 * dVal c + dVal d)
  else none

def parse6 (a b c d e f : Char) : Option Nat :=
  if isDig a && isDig b && isDig c && isDig d && isDig e && isDig f then
    some (100000 * dVal a + 10000 * dVal b + 1000 * dVal c + 100 * dVal d +
          10 * dVal e + dVal f)
  else none

/-- Parse the optional UTC-offset suffix accepted by `datetime.fromisoformat`. -/
def parseOff : List Char → Option (Option Int)
  | [] => some none
  | [s, h1, h2, c, m1, m2] =>
      if (s = '+' || s = '-') && c = ':' then
        match parse2 h1 h2, parse2 m1 m2 with
        | some hh, some mm =>
            if hh ≤ 23 && mm ≤ 59 then
              some (some (if s = '+' then ((hh * 60 + mm : Nat) : Int)
                          else -((hh * 60 + mm : Nat) : Int)))
            else none
        | _, _ => none
      else none
  | _ => none

/-- Parse the optional fractional-seconds part followed by the optional
offset. -/
def parseFracOff : List Char → Option (Nat × Option Int)
  | '.' :: r =>
      (match r with
       | f1 :: f2 :: f3 :: f4 :: f5 :: f6 :: rest =>
           match parse6 f1 f2 f3 f4 f5 f6 with
           | some us => (parseOff rest).map (fun o => (us, o))
           | none => none
       | _ => none)
  | r => (parseOff r).map (fun o => (0, o))

/-- `datetime.fromisoformat` on a character list, modelled on the repository's
own interchange fragment: the grammar `isoChars` emits (date, `T` or space
separator, `HH:MM:SS` time, optional 6-digit fraction, optional `±HH:MM`
offset with in-range fields), validating the calendar ranges exactly as
Python does.  On this fragment every supported Python (the repository needs
3.11+ for `tomllib`, and 3.9+ already agrees) accepts the same strings and
produces the same value, so the model is exact there.  The real
`fromisoformat` also accepts strings outside this fragment (short times,
other fraction lengths, basic formats, ...), so `none` is read as a raised
`ValueError` only where the surrounding development confines itself to
strings that are in the fragment or certainly unparsable (leading non-digit,
rejected by every supported Python): the lock-path theorems quantify over
serialiser-emitted timestamps or concrete agreed failures, and the health
model returns no verdict on other strings (see `checkHeartbeat`). -/
def fromisochars : List Char → Option DateTime
  | y1 :: y2 :: y3 :: y4 :: c1 :: m1 :: m2 :: c2 :: d1 :: d2 :: sep ::
    h1 :: h2 :: c3 :: n1 :: n2 :: c4 :: s1 :: s2 :: rest =>
      if c1 = '-' && c2 = '-' && (sep = 'T' || sep = ' ') && c3 = ':' && c4 = ':' then
        match parse4 y1 y2 y3 y4, parse2 m1 m2, parse2 d1 d2,
              parse2 h1 h2, parse2 n1 n2, parse2 s1 s2 with
        | some y, some mo, some da, some h, some mi, some se =>
            match parseFracOff rest with
            | some (us, off) =>
                if 1 ≤ y && 1 ≤ mo && mo ≤ 12 && 1 ≤ da && da ≤ daysInMonth y mo &&
                   h ≤ 23 && mi ≤ 59 && se ≤ 59 then
                  some ⟨y, mo, da, h, mi, se, us, off⟩
                else none
            | none => none
        | _, _, _, _, _, _ => none
      else none
  | _ => none

/-- `datetime.fromisoformat`. -/
def fromisoformat (s : String) : Option DateTime := fromisochars s.data

/-- Days since 1970-01-01 of a calendar date (standard civil-calendar
conversion, used to realise `datetime` subtraction). -/
def daysFromCivil (y m d : Int) : Int :=
  let y' := if m ≤ 2 then y - 1 else y
  let era := (if 0 ≤ y' then y' else y' - 399) / 400
  let yoe := y' - era * 400
  let mp := (m + 9) % 12
  let doy := (153 * mp + 2) / 5 + d - 1
  let doe := yoe * 365 + yoe / 4 - yoe / 100 + doy
  era * 146097 + doe - 719468

/-- Microseconds since the epoch of an (aware-or-naive) `DateTime`; realises
`datetime` subtraction via `(a - b).total_seconds()` exactly, in microseconds. -/
def epochUsec (d : DateTime) : Int :=
  ((daysFromCivil d.year d.month d.day) * 86400 +
   (d.hour : Int) * 3600 + (d.minute : Int) * 60 + (d.second : Int) -
   (d.offset.getD 0) * 60) * 1000000 + (d.usec : Int)

/-! ## Python string helpers used by lock.py -/

/-- The characters Python `str.strip()` removes (ASCII whitespace). -/
def isPyWs (c : Char) : Bool :=
  c = ' ' || c = '\t' || c = '\n' || c = '\r' || c = '\x0b' || c = '\x0c'

/-- Python `str.strip()`. -/
def pyStrip (s : String) : String :=
  ⟨((s.data.dropWhile isPyWs).reverse.dropWhile isPyWs).reverse⟩

def splitNlAux : List Char → List Char → List String
  | [], acc => [⟨acc.reverse⟩]
  | c :: r, acc =>
      if c = '\n' then (⟨acc.reverse⟩ : String) :: splitNlAux r []
      else splitNlAux r (c :: acc)

/-- Python `str.split("\n")` (keeps empty pieces). -/
def splitNl (s : String) : List String := splitNlAux s.data []

def pySplitAux : List Char → List Char → List String
  | [], acc => if acc.isEmpty then [] else [⟨acc.reverse⟩]
  | c :: r, acc =>
      if isPyWs c then
        (if acc.isEmpty then pySplitAux r [] else (⟨acc.reverse⟩ : String) :: pySplitAux r [])
      else pySplitAux r (c :: acc)

/-- Python `str.split()` with no argument (splits on whitespace runs, drops
empty pieces). -/
def pySplit (s : String) : List String := pySplitAux s.data []

def startsWithChars : List Char → List Char → Bool
  | [], _ => true
  | _ :: _, [] => false
  | a :: as, b :: bs => a == b && startsWithChars as bs

def occursIn (needle : List Char) : List Char → Bool
  | [] => needle.isEmpty
  | c :: r => startsWithChars needle (c :: r) || occursIn needle r

/-- Python `needle in hay` on strings. -/
def containsSub (needle hay : String) : Bool := occursIn needle.data hay.data

/-- Python `str.lower()` (ASCII). -/
def pyLower (s : String) : String := ⟨s.data.map Char.toLower⟩

/-- Python `str.replace("Z", "+00:00")` (health.py heartbeat timestamps). -/
def replaceZ : List Char → List Char
  | [] => []
  | c :: r => (if c = 'Z' then ['+', '0', '0', ':', '0', '0'] else [c]) ++ replaceZ r

/-- Whether a string starts with an ASCII digit.  `datetime.fromisoformat`
demands a four-digit year first, so a string whose first character is not a
digit raises `ValueError` under every supported Python; this is the class of
certainly-unparsable strings the model commits to. -/
def headIsDigit : List Char → Bool
  | [] => false
  | c :: _ => isDig c

/-! ## lock.py : LockMetadata / LockStatus -/

def LOCK_REF : String := "refs/tambour/merge-lock"

def DEFAULT_TIMEOUT : Nat := 300

def POLL_INTERVAL : Nat := 5

/-- lock.py `LockMetadata`.  `holder`, `host` and `pid` are JSON values because
`from_dict` stores whatever the parsed JSON contained without type checks. -/
structure LockMetadata where
  holder : JVal
  acquired_at : DateTime
  host : JVal
  pid : JVal
deriving DecidableEq

/-- lock.py `LockMetadata.to_dict`. -/
def LockMetadata.to_dict (m : LockMetadata) : JDict :=
  [("holder", m.holder),
   ("acquired_at", .str (isoformat m.acquired_at)),
   ("host", m.host),
   ("pid", m.pid)]

/-- lock.py `LockMetadata.from_dict`: field lookups raise `KeyError`;
`datetime.fromisoformat` raises `TypeError` on a non-string and `ValueError`
on an unparsable string.  Lookups and the parse happen in the evaluation order
of the Python keyword arguments. -/
def LockMetadata.from_dict (d : JDict) : Except PyErr LockMetadata := do
  let h ← d.item "holder"
  let a ← d.item "acquired_at"
  let dt ← match a with
    | .str s =>
        (match fromisoformat s with
         | some t => Except.ok t
         | none => Except.error .valueError)
    | _ => Except.error .typeError
  let ho ← d.item "host"
  let p ← d.item "pid"
  .ok ⟨h, dt, ho, p⟩

/-- lock.py `LockStatus`. -/
structure LockStatus where
  held : Bool
  metadata : Option LockMetadata
deriving DecidableEq

/-- lock.py `LockStatus.holder` property (`metadata.holder if metadata else
None`). -/
def LockStatus.holderJ (s : LockStatus) : Option JVal := s.metadata.map (·.holder)

/-! ## lock.py : MergeLock.status over raw git-command outcomes -/

/-- Outcomes of the git subprocesses `MergeLock.status` runs: return codes of
`fetch` / `cat-file FETCH_HEAD` / `ls-tree FETCH_HEAD`, the `ls-tree` stdout,
and for each blob hash the `cat-file -p` return code together with the result
of `json.loads` on its stdout. -/
structure GitEnv where
  fetch_rc : Int
  catfile_rc : Int
  lstree_rc : Int
  lstree_stdout : String
  blob : String → Int × Except PyErr JDict

/-- The per-line loop of `MergeLock.status` (lock.py lines 119-130): first line
containing `lock.json` with at least three whitespace-separated fields names
the blob; a readable blob is parsed with `json.loads` + `from_dict` (both may
raise). -/
def statusLoop (env : GitEnv) : List String → Except PyErr LockStatus
  | [] => .ok ⟨true, none⟩
  | line :: rest =>
      if containsSub "lock.json" line then
        let parts := pySplit line
        if parts.length ≥ 3 then
          let (rc, jd) := env.blob (parts.getD 2 "")
          if rc = 0 then do
            let d ← jd
            let md ← LockMetadata.from_dict d
            .ok ⟨true, some md⟩
          else statusLoop env rest
        else statusLoop env rest
      else statusLoop env rest

/-- lock.py `MergeLock.status` (lines 96-132): a failed fetch means the ref is
absent; any later subprocess failure yields `held` with no metadata; the
`try` around the walk catches only `json.JSONDecodeError` and `KeyError`, so
the `ValueError` / `TypeError` that `from_dict` can raise propagate. -/
def status (env : GitEnv) : Except PyErr LockStatus :=
  if env.fetch_rc ≠ 0 then .ok ⟨false, none⟩
  else if env.catfile_rc ≠ 0 then .ok ⟨true, none⟩
  else if env.lstree_rc ≠ 0 then .ok ⟨true, none⟩
  else
    match statusLoop env (splitNl (pyStrip env.lstree_stdout)) with
    | .ok s => .ok s
    | .error .jsonDecodeError => .ok ⟨true, none⟩
    | .error .keyError => .ok ⟨true, none⟩
    | .error e => .error e

/-! ## lock.py : the remote reference store -/

/-- The commit a lock-acquisition push stores: its blob content, given as the
result `json.loads` would produce on it. -/
structure CommitData where
  loads : Except PyErr JDict
deriving DecidableEq

/-- The shared remote reference store: the lock ref is either absent or bound
to one commit. -/
abbrev RemoteRef := Option CommitData

/-- The commit `MergeLock.acquire` builds for metadata `md`
(`json.dumps(metadata.to_dict())` stored as the `lock.json` blob). -/
def mkCommit (md : LockMetadata) : CommitData := ⟨.ok md.to_dict⟩

/-- The remote's atomic create-if-absent push (`git push origin
sha:refs/tambour/merge-lock`): succeeds (rc 0) exactly when the ref is absent,
else fails and leaves the ref unchanged. -/
def pushCreate (r : RemoteRef) (c : CommitData) : Int × RemoteRef :=
  match r with
  | none => (0, some c)
  | some c0 => (1, some c0)

/-- The remote's delete push (`git push origin --delete ...`): deleting a
present ref succeeds; deleting an absent ref fails with git's
"remote ref does not exist" message on stderr. -/
def pushDelete (r : RemoteRef) : Int × String × RemoteRef :=
  match r with
  | some _ => (0, "", none)
  | none => (1, "remote ref does not exist", none)

/-- How a well-behaved remote holding `r` answers the git commands `status`
runs: an absent ref makes the fetch fail; a present ref yields the single-entry
tree `100644 blob b0\tlock.json` whose blob is the stored content. -/
def refGitEnv : RemoteRef → GitEnv
  | none => ⟨128, 0, 0, "", fun _ => (1, .error .osError)⟩
  | some c =>
      ⟨0, 0, 0, "100644 blob b0\tlock.json",
       fun h => if h = "b0" then (0, c.loads) else (1, .error .osError)⟩

/-- `MergeLock.status` against a well-behaved remote holding `r`. -/
def statusOfRef (r : RemoteRef) : Except PyErr LockStatus := status (refGitEnv r)

/-! ## lock.py : MergeLock.release / force_release -/

/-- lock.py `MergeLock.release` (lines 212-242).  `if holder:` is Python
truthiness, so an empty-string holder skips the ownership check exactly like
`None`; ownership is checked via `status()` (which can raise); the delete is
treated as success when it succeeds or when stderr reports the ref as already
absent.  Returns the result together with the resulting ref state. -/
def release (holder : Option String) (r : RemoteRef) : Except PyErr (Bool × RemoteRef) := do
  let proceed ←
    match holder with
    | some h =>
        if h ≠ "" then do
          let st ← statusOfRef r
          if st.held && !(st.holderJ == some (JVal.str h)) then
            pure false
          else
            pure true
        else pure true
    | none => pure true
  if proceed then
    let (rc, stderr, r') := pushDelete r
    if rc = 0 then .ok (true, r')
    else if containsSub "unable to delete" (pyLower stderr) ||
            containsSub "remote ref does not exist" (pyLower stderr) then .ok (true, r')
    else .ok (false, r)
  else .ok (false, r)

/-- lock.py `MergeLock.force_release` (lines 244-255): unconditional delete,
success when the delete succeeds or the ref did not exist. -/
def force_release (r : RemoteRef) : Bool × RemoteRef :=
  let (rc, stderr, r') := pushDelete r
  (rc = 0 || containsSub "remote ref does not exist" (pyLower stderr), r')

/-! ## lock.py : MergeLock.acquire -/

/-- One observable step of the acquire loop. -/
inductive AcqAction where
  | push
  | statusRead (st : LockStatus)
  | sleep (seconds : Nat)
deriving DecidableEq

/-- lock.py `MergeLock.acquire` (lines 134-210) against a well-behaved remote:
while the deadline has not passed, build the lock commit (the local
`hash-object` / `mktree` / `commit-tree` calls succeed) and attempt the
create push; on success return `True`; on rejection read `status()` (whose
exceptions other than `CalledProcessError` propagate), sleep `POLL_INTERVAL`
and retry.  Time is advanced by the sleep; the loop returns `False` once the
deadline is reached.  Also returns the final ref state and the action trace. -/
def acquireModel (md : LockMetadata) (r : RemoteRef) (deadline t : Nat) :
    Except PyErr (Bool × RemoteRef × List AcqAction) :=
  if t < deadline then
    let (rc, r') := pushCreate r (mkCommit md)
    if rc = 0 then .ok (true, r', [.push])
    else
      match statusOfRef r' with
      | .error e => .error e
      | .ok st =>
          match acquireModel md r' deadline (t + POLL_INTERVAL) with
          | .error e => .error e
          | .ok (b, rf, tr) =>
              .ok (b, rf, .push :: .statusRead st :: .sleep POLL_INTERVAL :: tr)
  else .ok (false, r, [])
termination_by deadline - t
decreasing_by simp only [POLL_INTERVAL]; omega

/-- Number of iterations the acquire loop runs before the deadline passes when
every push is rejected. -/
def numIters (deadline t : Nat) : Nat :=
  if t < deadline then numIters deadline (t + POLL_INTERVAL) + 1 else 0
termination_by deadline - t
decreasing_by simp only [POLL_INTERVAL]; omega

/-- The trace of `k` rejected acquire iterations, each a push, a status read
and a poll-interval sleep. -/
def iterTrace (st : LockStatus) : Nat → List AcqAction
  | 0 => []
  | k + 1 => .push :: .statusRead st :: .sleep POLL_INTERVAL :: iterTrace st k

/-- An arbitrary interleaving of create-push attempts against one shared ref
store: runs the pushes in arrival order, returning the final store and each
push's success. -/
def runPushes : RemoteRef → List CommitData → RemoteRef × List Bool
  | r, [] => (r, [])
  | r, c :: cs =>
      let (rc, r') := pushCreate r c
      let (rf, out) := runPushes r' cs
      (rf, (rc == 0) :: out)

/-! ## events.py / config.py : event model and dispatch -/

/-- events.py `EventType`. -/
inductive EventType where
  | agent_spawned
  | agent_finished
  | branch_merged
  | task_claimed
  | task_completed
  | health_zombie
  | tool_used
  | tool_failed
  | session_started
  | session_file_read
  | session_file_written
deriving DecidableEq

/-- events.py `EventType` values. -/
def EventType.value : EventType → String
  | .agent_spawned => "agent.spawned"
  | .agent_finished => "agent.finished"
  | .branch_merged => "branch.merged"
  | .task_claimed => "task.claimed"
  | .task_completed => "task.completed"
  | .health_zombie => "health.zombie"
  | .tool_used => "tool.used"
  | .tool_failed => "tool.failed"
  | .session_started => "session.started"
  | .session_file_read => "session.file_read"
  | .session_file_written => "session.file_written"

/-- events.py `Event` (the fields the modelled code paths read). -/
structure Event where
  event_type : EventType
  issue_id : Option String := none
  worktree : Option String := none
  extra : List (String × String) := []
deriving DecidableEq

/-- config.py `PluginConfig` (`onEvents` is the Python `on` field, whose name
is not available in Lean). -/
structure PluginConfig where
  name : String
  onEvents : List String
  run : String
  blocking : Bool := false
  timeout : Nat := 30
  enabled : Bool := true
deriving DecidableEq

/-- config.py `PluginConfig.matches_event`. -/
def PluginConfig.matches_event (p : PluginConfig) (event_type : String) : Bool :=
  p.onEvents.contains event_type

/-- config.py `Config` (the plugin table; a Python dict keeps insertion order,
so the values are the plugins in configuration-declared order). -/
structure Config where
  plugins : List PluginConfig
deriving DecidableEq

/-- config.py `Config.get_plugins_for_event` (lines 285-291). -/
def Config.get_plugins_for_event (c : Config) (event_type : String) : List PluginConfig :=
  c.plugins.filter (fun p => p.matches_event event_type && p.enabled)

/-- events.py `PluginResult`. -/
structure PluginResult where
  plugin_name : String
  success : Bool
  exit_code : Option Int := none
  error : Option String := none
  output : Option String := none
  duration_ms : Option Nat := none
deriving DecidableEq

/-- The placeholder result `dispatch` returns for a non-blocking plugin
(events.py lines 262-267). -/
def placeholderResult (p : PluginConfig) : PluginResult :=
  { plugin_name := p.name, success := true, output := some "(Async execution started)",
    duration_ms := some 0 }

/-- Observable execution actions of one dispatch call: a synchronous plugin
run, or the start of a background thread for a non-blocking plugin. -/
inductive DispatchAction where
  | runSync (name : String)
  | spawnAsync (name : String)
deriving DecidableEq

/-- The plugin loop of `EventDispatcher.dispatch` (events.py lines 248-267),
parameterised by `exec`, the outcome `_execute_plugin` produces for each
plugin (`_execute_plugin` catches every exception, so it always returns a
result).  A blocking plugin runs synchronously and a failure stops the loop;
a non-blocking plugin is handed to a background thread and a placeholder is
appended.  Returns the result list and the action trace. -/
def dispatchList (exec : PluginConfig → PluginResult) :
    List PluginConfig → List PluginResult × List DispatchAction
  | [] => ([], [])
  | p :: rest =>
      if p.blocking then
        let r := exec p
        if r.success then
          let (rs, tr) := dispatchList exec rest
          (r :: rs, .runSync p.name :: tr)
        else ([r], [.runSync p.name])
      else
        let (rs, tr) := dispatchList exec rest
        (placeholderResult p :: rs, .spawnAsync p.name :: tr)

/-- events.py `EventDispatcher.dispatch` (lines 235-269): select the enabled
plugins subscribed to the event type, in configuration order, and run the
plugin loop. -/
def dispatch (exec : PluginConfig → PluginResult) (cfg : Config) (ev : Event) :
    List PluginResult × List DispatchAction :=
  dispatchList exec (cfg.get_plugins_for_event ev.event_type.value)

/-! ## health.py : zombie detection -/

/-- health.py `TaskHealth`. -/
structure TaskHealth where
  issue_id : String
  status : String
  assignee : Option String
  worktree_path : Option String
  worktree_exists : Bool
  is_zombie : Bool
  last_activity : Option DateTime := none
deriving DecidableEq

/-- Daemon configuration fields the health checker reads. -/
structure HealthCfg where
  zombie_threshold : Int
  auto_recover : Bool
deriving DecidableEq

/-- A task row as returned by the issue tracker (`task.get("id", "")`,
`task.get("status", "")`, `task.get("assignee")`). -/
structure BdTask where
  id : String
  status : String
  assignee : Option String
deriving DecidableEq

/-- The on-disk state of a worktree heartbeat file: absent, or present with
the outcome of `read_text()` + `json.loads` on it (`.error` covers an
`OSError` while reading as well as malformed JSON). -/
inductive HeartbeatFile where
  | absent
  | present (loads : Except PyErr JDict)
deriving DecidableEq

/-- The environment of an existing worktree as the health check observes it:
its path, its heartbeat file, and whether `lsof` finds a process whose working
directory is inside it. -/
structure WorktreeEnv where
  path : String
  heartbeat : HeartbeatFile
  procRunning : Bool
deriving DecidableEq

/-- health.py `HealthChecker._check_heartbeat` (lines 167-192), as a partial
model (`none` = the model gives no verdict).  A readable heartbeat with a
truthy `timestamp` entry is parsed (`Z` replaced by `+00:00`); a fresh parse
means alive, a stale one not alive; `JSONDecodeError`, `ValueError` and
`OSError` fall through to the process check, as does an absent or falsy
timestamp.  A truthy non-string timestamp raises `AttributeError`
(`.replace` on a non-string) and a naive parsed timestamp raises `TypeError`
(aware-minus-naive subtraction); neither is caught.  Timestamp strings are
interpreted through the modelled `fromisoformat` fragment: a string the
fragment parses behaves as in Python (same value); a string with a leading
non-digit raises `ValueError` under every supported Python, hence the caught
fallback; for any other string (one the real `fromisoformat` might accept
beyond the fragment) the model returns `none` and asserts nothing. -/
def checkHeartbeat (hb : HeartbeatFile) (procRunning : Bool) (now : DateTime)
    (threshold : Int) : Option (Except PyErr (Bool × Option DateTime)) :=
  match hb with
  | .absent => some (.ok (procRunning, none))
  | .present (.error _) => some (.ok (procRunning, none))
  | .present (.ok d) =>
      match d.lookup "timestamp" with
      | none => some (.ok (procRunning, none))
      | some v =>
          if truthy v then
            match v with
            | .str ts =>
                (match fromisochars (replaceZ ts.data) with
                 | none =>
                     if headIsDigit (replaceZ ts.data) then none
                     else some (.ok (procRunning, none))
                 | some last =>
                     match last.offset with
                     | none => some (.error .typeError)
                     | some _ =>
                         let age := epochUsec now - epochUsec last
                         some (.ok (decide (age < threshold * 1000000), some last)))
            | _ => some (.error .attributeError)
          else some (.ok (procRunning, none))

/-- health.py `HealthChecker._check_task` (lines 129-165), partial like
`checkHeartbeat`: the worktree lookup is summarised by `wt` (`some` exactly
when `_find_worktree` returns an existing path); the heartbeat is consulted
only when the worktree exists; a task is a zombie when it is `in_progress`
and either has no worktree or is not alive. -/
def checkTask (task : BdTask) (wt : Option WorktreeEnv) (now : DateTime)
    (threshold : Int) : Option (Except PyErr TaskHealth) :=
  match wt with
  | some w =>
      (match checkHeartbeat w.heartbeat w.procRunning now threshold with
       | none => none
       | some (.error e) => some (.error e)
       | some (.ok (is_alive, last_activity)) =>
           some (.ok { issue_id := task.id, status := task.status,
                       assignee := task.assignee, worktree_path := some w.path,
                       worktree_exists := true,
                       is_zombie := task.status == "in_progress" && (!true || !is_alive),
                       last_activity := last_activity }))
  | none =>
      some (.ok { issue_id := task.id, status := task.status,
                  assignee := task.assignee, worktree_path := none,
                  worktree_exists := false,
                  is_zombie := task.status == "in_progress" && (!false || !false),
                  last_activity := none })

/-- Python `str(bool).lower()`. -/
def pyBoolStr (b : Bool) : String := if b then "true" else "false"

/-- The `bd` command health.py `HealthChecker._recover_zombie` runs
(lines 272-279). -/
def recoverZombieCmd (issue_id : String) : List String :=
  ["bd", "update", issue_id, "--status", "open"]

/-- The `bd` command agent.py `AgentLauncher.unclaim_issue` runs (lines
136-141), which does clear the assignee. -/
def unclaimCmd (issue_id : String) : List String :=
  ["bd", "update", issue_id, "--status", "open", "--assignee", ""]

/-- health.py `HealthChecker._handle_zombie` (lines 238-261): the emitted
`health.zombie` event, and the external commands run (the recovery command
exactly when auto-recovery is configured). -/
def handleZombie (cfg : HealthCfg) (h : TaskHealth) : Event × List (List String) :=
  ({ event_type := .health_zombie, issue_id := some h.issue_id,
     worktree := h.worktree_path,
     extra := [("worktree_exists", pyBoolStr h.worktree_exists)] },
   if cfg.auto_recover then [recoverZombieCmd h.issue_id] else [])

/-! ## Claim-side definitions (written from the claim texts, for comparison
with the code-derived definitions above) -/

/-- A heartbeat `timestamp` entry is well formed when, if truthy, it is a
string that either parses in the writer's interchange fragment to an aware
timestamp (the only thing the heartbeat writer ever emits:
`datetime.now(timezone.utc).isoformat().replace("+00:00", "Z")`), or is
certainly unparsable (leading non-digit), which every supported Python
rejects with the caught `ValueError`.  Outside this set the code can raise
(`AttributeError` on a truthy non-string — see the C2 counterexample —
`TypeError` on a naive timestamp) or depend on parser breadth beyond the
modelled fragment. -/
def tsGood (v : JVal) : Bool :=
  if truthy v then
    match v with
    | .str ts =>
        (match fromisochars (replaceZ ts.data) with
         | some dt => dt.offset.isSome
         | none => !headIsDigit (replaceZ ts.data))
    | _ => false
  else true

def wellFormedHb : HeartbeatFile → Bool
  | .present (.ok d) =>
      (match d.lookup "timestamp" with
       | some v => tsGood v
       | none => true)
  | _ => true

def wellFormedWt : Option WorktreeEnv → Bool
  | none => true
  | some w => wellFormedHb w.heartbeat

/-- Claim C2's notion of a readable liveness record: the age (in microseconds)
of the record's timestamp, when the record is present and yields one.
Interpreted over well-formed records (`wellFormedHb`), where the modelled
parser fragment and the real `fromisoformat` coincide: exactly the records
with an aware interchange-format timestamp have an age; all other well-formed
records (absent, unreadable, falsy or certainly-unparsable timestamp) fall
back to the process check. -/
def recordAge (hb : HeartbeatFile) (now : DateTime) : Option Int :=
  match hb with
  | .present (.ok d) =>
      (match d.lookup "timestamp" with
       | some (.str ts) =>
           if ts ≠ "" then
             match fromisochars (replaceZ ts.data) with
             | some dt => if dt.offset.isSome then some (epochUsec now - epochUsec dt) else none
             | none => none
           else none
       | _ => none)
  | _ => none

/-- Claim C2's `alive`: a record with an age is alive exactly when the age is
below the threshold; otherwise fall back to the process check. -/
def claimAlive (w : WorktreeEnv) (now : DateTime) (threshold : Int) : Bool :=
  match recordAge w.heartbeat now with
  | some age => decide (age < threshold * 1000000)
  | none => w.procRunning

/-- Claim C2's zombie condition: in-progress and (no workspace or not
alive). -/
def claimZombie (task : BdTask) (wt : Option WorktreeEnv) (now : DateTime)
    (threshold : Int) : Bool :=
  (task.status == "in_progress") &&
  (match wt with
   | none => true
   | some w => !claimAlive w now threshold)

/-! ## Helpers for dispatch theorems -/

/-- The results the dispatch loop accumulates for a prefix of plugins none of
whose blocking members fail. -/
def preResults (exec : PluginConfig → PluginResult) (ps : List PluginConfig) :
    List PluginResult :=
  ps.map (fun p => if p.blocking then exec p else placeholderResult p)

/-- The action trace the dispatch loop produces for such a prefix. -/
def preTrace (ps : List PluginConfig) : List DispatchAction :=
  ps.map (fun p => if p.blocking then .runSync p.name else .spawnAsync p.name)

/-! ## Concrete fixtures used by counterexamples and witnesses -/

/-- A well-formed acquisition timestamp, `2024-01-15T10:30:00+00:00`. -/
def dt0 : DateTime := ⟨2024, 1, 15, 10, 30, 0, 0, some 0⟩

/-- A well-formed lock metadata value. -/
def md0 : LockMetadata := ⟨.str "agent-1", dt0, .str "host-a", .num 12345⟩

/-- A well-formed lock metadata value held by a different holder. -/
def mdOther : LockMetadata := ⟨.str "agent-2", dt0, .str "host-b", .num 777⟩

/-- A stored lock blob that is valid JSON with all fields present but whose
`acquired_at` is not a parsable timestamp. -/
def badDict : JDict :=
  [("holder", .str "agent-x"), ("acquired_at", .str "not-a-timestamp"),
   ("host", .str "host-x"), ("pid", .num 7)]

/-- The lock commit storing `badDict`. -/
def badCommit : CommitData := ⟨.ok badDict⟩

/-- A health-check reference time 30 seconds after `dt0`. -/
def now30 : DateTime := ⟨2024, 1, 15, 10, 30, 30, 0, some 0⟩

/-- A fresh heartbeat record as the heartbeat writer produces it. -/
def hbGood : HeartbeatFile :=
  .present (.ok [("timestamp", .str "2024-01-15T10:30:00Z"), ("pid", .num 4242)])

/-- An existing worktree with a fresh heartbeat and no bound process. -/
def wtGood : WorktreeEnv := ⟨"/tmp/wt-ta-1", hbGood, false⟩

/-- An in-progress tracked task. -/
def taskGood : BdTask := ⟨"ta-1", "in_progress", some "agent-1"⟩

/-- A heartbeat record whose `timestamp` entry is a (truthy) number rather
than a string. -/
def hbNumTs : HeartbeatFile := .present (.ok [("timestamp", .num 1)])

/-- A blocking plugin named `first`. -/
def p1fail : PluginConfig := ⟨"first", ["branch.merged"], "run-first", true, 30, true⟩

/-- A blocking plugin named `second`. -/
def p2block : PluginConfig := ⟨"second", ["branch.merged"], "run-second", true, 30, true⟩

/-- A blocking plugin that succeeds under `execW`. -/
def pOk : PluginConfig := ⟨"ok-plugin", ["task.completed"], "run-ok", true, 30, true⟩

/-- A non-blocking plugin. -/
def pAsync : PluginConfig := ⟨"notify", ["task.completed"], "run-notify", false, 30, true⟩

/-- A concrete `_execute_plugin` outcome oracle: the plugin named `first`
fails with exit code 1, every other command exits 0. -/
def execW : PluginConfig → PluginResult := fun p =>
  if p.name = "first" then ⟨p.name, false, some 1, some "boom", some "", some 5⟩
  else ⟨p.name, true, some 0, none, some "ok", some 5⟩

/-- A configuration declaring two blocking plugins, `first` then `second`. -/
def cfgTwoBlocking : Config := ⟨[p1fail, p2block]⟩

/-- A configuration declaring one blocking then one non-blocking plugin. -/
def cfgMixed : Config := ⟨[pOk, pAsync]⟩

def evMerged : Event := { event_type := .branch_merged }

def evCompleted : Event := { event_type := .task_completed }

/-- A detected zombie work unit with an assignee. -/
def zombieHealth : TaskHealth :=
  { issue_id := "ta-1", status := "in_progress", assignee := some "agent-1",
    worktree_path := none, worktree_exists := false, is_zombie := true,
    last_activity := none }

/-! # Theorems

General lemmas first, then the claim theorems with their witnesses and
counterexamples. -/

theorem isDig_dChar {n : Nat} (h : n < 10) : isDig (dChar n) = true := by
  interval_cases n <;> decide

theorem dVal_dChar {n : Nat} (h : n < 10) : dVal (dChar n) = n := by
  interval_cases n <;> decide

theorem parse2_pad {n : Nat} (h : n < 100) :
    parse2 (dChar (n / 10)) (dChar (n % 10)) = some n := by
  have h1 : n / 10 < 10 := by omega
  have h2 : n % 10 < 10 := by omega
  simp only [parse2, isDig_dChar h1, isDig_dChar h2, dVal_dChar h1, dVal_dChar h2,
    Bool.and_self, if_true]
  congr 1
  omega

theorem parse4_pad {n : Nat} (h : n < 10000) :
    parse4 (dChar (n / 1000)) (dChar (n / 100 % 10)) (dChar (n / 10 % 10)) (dChar (n % 10)) =
      some n := by
  have h1 : n / 1000 < 10 := by omega
  have h2 : n / 100 % 10 < 10 := by omega
  have h3 : n / 10 % 10 < 10 := by omega
  have h4 : n % 10 < 10 := by omega
  simp only [parse4, isDig_dChar h1, isDig_dChar h2, isDig_dChar h3, isDig_dChar h4,
    dVal_dChar h1, dVal_dChar h2, dVal_dChar h3, dVal_dChar h4, Bool.and_self, if_true]
  congr 1
  omega

theorem parse6_pad {n : Nat} (h : n < 1000000) :
    parse6 (dChar (n / 100000)) (dChar (n / 10000 % 10)) (dChar (n / 1000 % 10))
      (dChar (n / 100 % 10)) (dChar (n / 10 % 10)) (dChar (n % 10)) = some n := by
  have h1 : n / 100000 < 10 := by omega
  have h2 : n / 10000 % 10 < 10 := by omega
  have h3 : n / 1000 % 10 < 10 := by omega
  have h4 : n / 100 % 10 < 10 := by omega
  have h5 : n / 10 % 10 < 10 := by omega
  have h6 : n % 10 < 10 := by omega
  simp only [parse6, isDig_dChar h1, isDig_dChar h2, isDig_dChar h3, isDig_dChar h4,
    isDig_dChar h5, isDig_dChar h6, dVal_dChar h1, dVal_dChar h2, dVal_dChar h3,
    dVal_dChar h4, dVal_dChar h5, dVal_dChar h6, Bool.and_self, if_true]
  congr 1
  omega

theorem parseOff_rt (o : Option Int) (ho : ∀ x ∈ o, x.natAbs ≤ 1439) :
    parseOff (offChars o) = some o := by
  cases o with
  | none => rfl
  | some x =>
      have hb : x.natAbs ≤ 1439 := ho x rfl
      have hdh : x.natAbs / 60 < 100 := by omega
      have hdm : x.natAbs % 60 < 100 := by omega
      have hle : x.natAbs / 60 ≤ 23 := by omega
      have hle2 : x.natAbs % 60 ≤ 59 := by omega
      by_cases h0 : 0 ≤ x
      · simp only [offChars, pad2, if_pos h0, List.cons_append, List.nil_append, parseOff,
          parse2_pad hdh, parse2_pad hdm, hle, hle2, decide_True, Bool.true_or, Bool.or_true,
          Bool.and_self, Bool.true_and, Bool.and_true, reduceIte, Option.some.injEq]
        omega
      · simp only [offChars, pad2, if_neg h0, List.cons_append, List.nil_append, parseOff,
          parse2_pad hdh, parse2_pad hdm, hle, hle2, decide_True, Bool.true_or, Bool.or_true,
          Bool.and_self, Bool.true_and, Bool.and_true, reduceIte, Option.some.injEq,
          show (('-' : Char) = '+') = False from by decide, if_false]
        omega

theorem parseFracOff_not_dot (cs : List Char) (h : cs.head? ≠ some '.') :
    parseFracOff cs = (parseOff cs).map (fun o => (0, o)) := by
  cases cs with
  | nil => rfl
  | cons c r =>
      have hc : c ≠ '.' := by intro hc; exact h (by simp [hc])
      rw [parseFracOff.eq_def]
      split
      · rename_i heq; cases heq; exact absurd rfl hc
      · rfl

theorem parseFracOff_rt (us : Nat) (o : Option Int) (hus : us ≤ 999999)
    (ho : ∀ x ∈ o, x.natAbs ≤ 1439) :
    parseFracOff (fracChars us ++ offChars o) = some (us, o) := by
  by_cases hz : us = 0
  · subst hz
    simp only [fracChars, reduceIte, List.nil_append]
    rw [parseFracOff_not_dot, parseOff_rt o ho]
    · rfl
    · cases o with
      | none => simp [offChars]
      | some x =>
          by_cases h0 : 0 ≤ x <;> simp [offChars, h0]
  · simp only [fracChars, if_neg hz, pad6, List.cons_append, List.nil_append]
    rw [parseFracOff]
    simp only [parse6_pad (by omega : us < 1000000), parseOff_rt o ho, Option.map_some']

theorem daysInMonth_le (y m : Nat) : daysInMonth y m ≤ 31 := by
  unfold daysInMonth
  split_ifs <;> omega

/-- Round trip of the concrete `datetime` codec: `fromisoformat` inverts
`isoformat` on every valid datetime. -/
theorem fromisochars_isoChars (d : DateTime) (h : d.valid = true) :
    fromisochars (isoChars d) = some d := by
  obtain ⟨y, mo, da, hh, mi, se, us, off⟩ := d
  simp only [DateTime.valid, Bool.and_eq_true, decide_eq_true_eq] at h
  obtain ⟨⟨⟨⟨⟨⟨⟨⟨⟨⟨h1, h2⟩, h3⟩, h4⟩, h5⟩, h6⟩, h7⟩, h8⟩, h9⟩, h10⟩, h11⟩ := h
  have hoff : ∀ x ∈ off, x.natAbs ≤ 1439 := by
    intro x hx
    cases off with
    | none => cases hx
    | some x0 =>
        cases hx
        simpa using h11
  have hda : da < 100 := by
    have := daysInMonth_le y mo
    omega
  simp only [isoChars, pad4, pad2, List.cons_append, List.nil_append, List.append_assoc]
  rw [fromisochars]
  simp only [parse4_pad (by omega : y < 10000), parse2_pad (by omega : mo < 100),
    parse2_pad hda, parse2_pad (by omega : hh < 100),
    parse2_pad (by omega : mi < 100), parse2_pad (by omega : se < 100),
    parseFracOff_rt us off (by omega) hoff]
  simp [h1, h2, h3, h4, h5, h6, h7, h8, h9]

theorem from_dict_to_dict (m : LockMetadata) (h : m.acquired_at.valid = true) :
    LockMetadata.from_dict m.to_dict = .ok m := by
  have e1 : LockMetadata.from_dict m.to_dict =
      (do
        let dt ← (match fromisoformat (isoformat m.acquired_at) with
                  | some t => Except.ok t
                  | none => (Except.error PyErr.valueError : Except PyErr DateTime))
        Except.ok (⟨m.holder, dt, m.host, m.pid⟩ : LockMetadata)) := rfl
  have hf : fromisoformat (isoformat m.acquired_at) = some m.acquired_at :=
    fromisochars_isoChars m.acquired_at h
  rw [e1, hf]
  rfl

theorem statusOfRef_none : statusOfRef none = .ok ⟨false, none⟩ := rfl

theorem statusOfRef_okLoads (d : JDict) :
    statusOfRef (some ⟨.ok d⟩) =
      match LockMetadata.from_dict d with
      | .ok md => .ok ⟨true, some md⟩
      | .error .jsonDecodeError => .ok ⟨true, none⟩
      | .error .keyError => .ok ⟨true, none⟩
      | .error e => .error e := by
  have l : statusOfRef (some ⟨.ok d⟩) =
      match (Except.bind (LockMetadata.from_dict d)
              (fun md => (Except.ok ⟨true, some md⟩ : Except PyErr LockStatus))) with
      | .ok s => .ok s
      | .error .jsonDecodeError => .ok ⟨true, none⟩
      | .error .keyError => .ok ⟨true, none⟩
      | .error e => .error e := rfl
  rw [l]
  cases hfd : LockMetadata.from_dict d with
  | ok md => rfl
  | error e => cases e <;> rfl

/-- `status` against a remote holding the commit `acquire` builds for valid
metadata recovers exactly that metadata. -/
theorem statusOfRef_mkCommit (md : LockMetadata) (h : md.acquired_at.valid = true) :
    statusOfRef (some (mkCommit md)) = .ok ⟨true, some md⟩ := by
  rw [show mkCommit md = ⟨.ok md.to_dict⟩ from rfl, statusOfRef_okLoads,
    from_dict_to_dict md h]

theorem runPushes_held (c0 : CommitData) (cs : List CommitData) :
    runPushes (some c0) cs = (some c0, List.replicate cs.length false) := by
  induction cs with
  | nil => rfl
  | cons c cs ih => simp [runPushes, pushCreate, ih, List.replicate]

/-- C9: for every LockMetadata value (with a real datetime, i.e. one whose
fields satisfy the invariant Python's `datetime` type enforces), serialising
via `to_dict` and parsing back via `from_dict` returns exactly the same value:
holder, host, pid and the acquisition timestamp are all preserved. -/
theorem c9_metadata_roundtrip (m : LockMetadata) (h : m.acquired_at.valid = true) :
    LockMetadata.from_dict m.to_dict = .ok m :=
  from_dict_to_dict m h

/-- Witness for C9 at a concrete metadata value. -/
theorem c9_metadata_roundtrip_witness :
    md0.acquired_at.valid = true ∧ LockMetadata.from_dict md0.to_dict = .ok md0 :=
  ⟨by decide, c9_metadata_roundtrip md0 (by decide)⟩

/-- C1: for any interleaving of create-push attempts by concurrent acquires
against one shared reference store in which the lock reference is absent, at
most one push succeeds (the store's create-if-absent semantics alone enforce
this), and the winner's subsequent `status()` returns exactly the metadata the
winner stored. -/
theorem c1_mutual_exclusion :
    (∀ cs : List CommitData, ((runPushes none cs).2.count true) ≤ 1) ∧
    (∀ (md : LockMetadata) (rest : List CommitData), md.acquired_at.valid = true →
      runPushes none (mkCommit md :: rest) =
        (some (mkCommit md), true :: List.replicate rest.length false) ∧
      statusOfRef (some (mkCommit md)) = .ok ⟨true, some md⟩) := by
  constructor
  · intro cs
    cases cs with
    | nil => simp [runPushes]
    | cons c cs =>
        simp [runPushes, pushCreate, runPushes_held, List.count_replicate]
  · intro md rest h
    exact ⟨by simp [runPushes, pushCreate, runPushes_held], statusOfRef_mkCommit md h⟩

/-- Witness for C1: a single attempt from an unheld store wins and its status
read returns its own metadata. -/
theorem c1_mutual_exclusion_witness :
    md0.acquired_at.valid = true ∧
    runPushes none [mkCommit md0] = (some (mkCommit md0), [true]) ∧
    statusOfRef (some (mkCommit md0)) = .ok ⟨true, some md0⟩ := by
  refine ⟨by decide, ?_⟩
  have h := c1_mutual_exclusion.2 md0 [] (by decide)
  simpa using h

theorem exceptOkBind {ε α β : Type} (a : α) (f : α → Except ε β) :
    ((Except.ok a : Except ε α) >>= f) = f a := rfl

theorem exceptErrorBind {ε α β : Type} (e : ε) (f : α → Except ε β) :
    ((Except.error e : Except ε α) >>= f) = .error e := rfl

theorem exceptPureBind {ε α β : Type} (a : α) (f : α → Except ε β) :
    ((pure a : Except ε α) >>= f) = f a := rfl

/-- Characterisation of `release` with a truthy holder argument: the ownership
check refuses with the state unchanged, and otherwise the delete (or
already-absent) path reports success with the ref gone. -/
theorem release_some_ne (h : String) (hh : h ≠ "") (r : RemoteRef) :
    release (some h) r =
      (statusOfRef r) >>= fun st =>
        if st.held && !(st.holderJ == some (JVal.str h)) then .ok (false, r)
        else .ok (true, none) := by
  rw [release]
  simp only [if_pos hh]
  cases hst : statusOfRef r with
  | error e =>
      simp only [exceptErrorBind]
  | ok st =>
      simp only [exceptOkBind]
      by_cases hc : (st.held && !(st.holderJ == some (JVal.str h))) = true
      · rw [if_pos hc, if_pos hc]
        rfl
      · rw [if_neg hc, if_neg hc]
        cases r <;> rfl

theorem statusOfRef_badCommit :
    statusOfRef (some badCommit) = .error .valueError := by decide

/-- C5: evaluation of `status()` at a remote whose stored lock blob is valid
JSON with every field present but an unparsable `acquired_at` timestamp: the
`ValueError` raised by `datetime.fromisoformat` inside `from_dict` is not in
the `except (json.JSONDecodeError, KeyError)` tuple, so `status()` raises
instead of returning `{held: true, metadata: none}`. -/
theorem c5_status_parse_bug :
    statusOfRef (some badCommit) = .error .valueError := statusOfRef_badCommit

/-- C6 counterexample: the claim fails for the empty-string holder argument.
`release("")` while the lock is held by `agent-2` skips the ownership check
(Python `if holder:` is falsy on `""`), deletes the reference and returns
true, instead of refusing and leaving the lock unchanged. -/
theorem c6_release_counterexample :
    release (some "") (some (mkCommit mdOther)) = .ok (true, none) := by decide

/-- C6 (amended): for every non-empty holder argument, releasing while the
lock is held by a different holder returns false and leaves the reference
unchanged; releasing when the reference is already absent is treated as
success for any holder argument. -/
theorem c6_release_amended :
    (∀ (h : String) (md : LockMetadata), h ≠ "" → md.acquired_at.valid = true →
      md.holder ≠ JVal.str h →
      release (some h) (some (mkCommit md)) = .ok (false, some (mkCommit md))) ∧
    (∀ ho : Option String, release ho none = .ok (true, none)) := by
  constructor
  · intro h md hne hv hObj
    simp only [release, if_pos hne, statusOfRef_mkCommit md hv, exceptOkBind]
    simp [LockStatus.holderJ, hObj]
  · intro ho
    cases ho with
    | none => rfl
    | some h =>
        by_cases hh : h = ""
        · subst hh; rfl
        · simp only [release, if_pos hh, statusOfRef_none, exceptOkBind]
          rfl

/-- Witness for C6: a concrete non-holder release is refused with the lock
left held, and a release against an absent reference succeeds. -/
theorem c6_release_amended_witness :
    release (some "agent-1") (some (mkCommit mdOther)) = .ok (false, some (mkCommit mdOther)) ∧
    release (some "agent-1") none = .ok (true, none) :=
  ⟨c6_release_amended.1 "agent-1" mdOther (by decide) (by decide) (by decide),
   c6_release_amended.2 (some "agent-1")⟩

/-- C10: with the holder argument omitted (`None`), the ownership check is
skipped entirely and the reference is deleted unconditionally, whatever its
current holder; and a false return from the ownership path can only arise
from a supplied (truthy) holder that differs from the current holder of a
held lock. -/
theorem c10_release_unverified :
    (∀ r : RemoteRef, release none r = .ok (true, none)) ∧
    (∀ (h : String) (r r' : RemoteRef), release (some h) r = .ok (false, r') →
      h ≠ "" ∧ r' = r ∧
      ∃ st, statusOfRef r = .ok st ∧ st.held = true ∧ st.holderJ ≠ some (JVal.str h)) := by
  constructor
  · intro r
    cases r <;> rfl
  · intro h r r' hrel
    by_cases hh : h = ""
    · subst hh
      cases r with
      | none =>
          rw [show release (some "") none = .ok (true, none) from rfl] at hrel
          simp at hrel
      | some c =>
          rw [show release (some "") (some c) = .ok (true, none) from rfl] at hrel
          simp at hrel
    · refine ⟨hh, ?_⟩
      rw [release_some_ne h hh] at hrel
      cases hst : statusOfRef r with
      | error e =>
          rw [hst] at hrel
          simp only [exceptErrorBind] at hrel
          cases hrel
      | ok st =>
          rw [hst] at hrel
          simp only [exceptOkBind] at hrel
          by_cases hc : (st.held && !(st.holderJ == some (JVal.str h))) = true
          · rw [if_pos hc] at hrel
            simp only [Except.ok.injEq, Prod.mk.injEq] at hrel
            refine ⟨hrel.2.symm, st, rfl, ?_⟩
            simp only [Bool.and_eq_true, Bool.not_eq_true', beq_eq_false_iff_ne, ne_eq] at hc
            exact ⟨hc.1, hc.2⟩
          · rw [if_neg hc] at hrel
            simp at hrel

/-- Witness for C10: a no-holder release deletes a held lock and reports
success, and a refused release implies a truthy differing holder. -/
theorem c10_release_unverified_witness :
    release none (some (mkCommit mdOther)) = .ok (true, none) ∧
    ("agent-1" ≠ "" ∧ some (mkCommit mdOther) = some (mkCommit mdOther) ∧
      ∃ st, statusOfRef (some (mkCommit mdOther)) = .ok st ∧ st.held = true ∧
        st.holderJ ≠ some (JVal.str "agent-1")) :=
  ⟨c10_release_unverified.1 (some (mkCommit mdOther)),
   c10_release_unverified.2 "agent-1" (some (mkCommit mdOther)) (some (mkCommit mdOther))
     (by decide)⟩

theorem acquire_reject_aux (md : LockMetadata) (c : CommitData) (st : LockStatus)
    (hst : statusOfRef (some c) = .ok st) :
    ∀ (n deadline t : Nat), deadline - t ≤ n →
      acquireModel md (some c) deadline t =
        .ok (false, some c, iterTrace st (numIters deadline t)) := by
  intro n
  induction n with
  | zero =>
      intro deadline t hle
      have hnot : ¬ t < deadline := by omega
      rw [acquireModel, numIters]
      simp [hnot, iterTrace]
  | succ n ih =>
      intro deadline t hle
      rw [acquireModel, numIters]
      by_cases hlt : t < deadline
      · simp only [if_pos hlt, pushCreate]
        rw [hst, ih deadline (t + POLL_INTERVAL) (by simp only [POLL_INTERVAL]; omega)]
        simp [iterTrace]
      · simp [hlt, iterTrace]

/-- C7 counterexample: when every create-push is rejected because the lock is
held by a commit with an unparsable timestamp, `acquire` does not return
false on timeout; the very first `status()` read raises `ValueError` out of
`acquire` (only `subprocess.CalledProcessError` is caught in the loop). -/
theorem c7_acquire_counterexample :
    acquireModel md0 (some badCommit) 10 0 = .error .valueError := by
  rw [acquireModel]
  simp only [show (0 : Nat) < 10 from by omega, if_pos, pushCreate, statusOfRef_badCommit]
  simp

/-- C7 (amended): for every acquire call whose create-push is rejected on
every attempt and whose `status()` reads return normally (the held metadata
parses, or fails only with the caught JSON/key errors), acquire reads
`status()` after each rejection, sleeps the fixed poll interval, and returns
false (without raising) once the deadline has passed, leaving the reference
unchanged. -/
theorem c7_acquire_rejected_amended (md : LockMetadata) (c : CommitData)
    (deadline t : Nat) (st : LockStatus) (hst : statusOfRef (some c) = .ok st) :
    acquireModel md (some c) deadline t =
      .ok (false, some c, iterTrace st (numIters deadline t)) :=
  acquire_reject_aux md c st hst (deadline - t) deadline t le_rfl

/-- Witness for C7 at a concrete contended lock and timeout. -/
theorem c7_acquire_rejected_witness :
    acquireModel md0 (some (mkCommit mdOther)) 7 0 =
      .ok (false, some (mkCommit mdOther),
           iterTrace ⟨true, some mdOther⟩ (numIters 7 0)) :=
  c7_acquire_rejected_amended md0 (mkCommit mdOther) 7 0 ⟨true, some mdOther⟩ (by decide)

theorem checkHeartbeat_wf (hb : HeartbeatFile) (pr : Bool) (now : DateTime)
    (threshold : Int) (hwf : wellFormedHb hb = true) :
    ∃ la, checkHeartbeat hb pr now threshold =
      some (.ok ((match recordAge hb now with
                  | some age => decide (age < threshold * 1000000)
                  | none => pr), la)) := by
  cases hb with
  | absent => exact ⟨none, rfl⟩
  | present ld =>
      cases ld with
      | error e => exact ⟨none, rfl⟩
      | ok d =>
          cases hlk : d.lookup "timestamp" with
          | none =>
              refine ⟨none, ?_⟩
              simp [checkHeartbeat, recordAge, hlk]
          | some v =>
              have htg : tsGood v = true := by simpa [wellFormedHb, hlk] using hwf
              by_cases htr : truthy v = true
              · cases v with
                | str ts =>
                    have hts : ts ≠ "" := by simpa [truthy] using htr
                    cases hp : fromisochars (replaceZ ts.data) with
                    | none =>
                        have hhead : headIsDigit (replaceZ ts.data) = false := by
                          simpa [tsGood, htr, hp] using htg
                        refine ⟨none, ?_⟩
                        simp [checkHeartbeat, recordAge, hlk, htr, hp, hts, hhead]
                    | some dt =>
                        have hoff : dt.offset.isSome = true := by
                          simpa [tsGood, htr, hp] using htg
                        obtain ⟨o, ho⟩ := Option.isSome_iff_exists.mp hoff
                        refine ⟨some dt, ?_⟩
                        simp [checkHeartbeat, recordAge, hlk, htr, hp, hts, ho]
                | num n => exact absurd htg (by simp [tsGood, htr])
                | bool b => exact absurd htg (by simp [tsGood, htr])
                | null => exact absurd htr (by simp [truthy])
              · have htr' : truthy v = false := by simpa using htr
                refine ⟨none, ?_⟩
                cases v with
                | str ts =>
                    have hts : ts = "" := by simpa [truthy] using htr'
                    subst hts
                    simp [checkHeartbeat, recordAge, hlk, truthy]
                | num n =>
                    have hn : n = 0 := by simpa [truthy] using htr'
                    subst hn
                    simp [checkHeartbeat, recordAge, hlk, truthy]
                | bool b =>
                    have hB : b = false := by simpa [truthy] using htr'
                    subst hB
                    simp [checkHeartbeat, recordAge, hlk, truthy]
                | null => simp [checkHeartbeat, recordAge, hlk, truthy]

/-- C2 counterexample: a heartbeat file whose `timestamp` entry is a truthy
number.  The claim says such a unit is classified via the process fallback,
but `timestamp_str.replace` raises `AttributeError` (not in the caught
exception tuple), so the health check raises instead of classifying. -/
theorem c2_zombie_counterexample :
    checkTask taskGood (some ⟨"/tmp/wt-ta-1", hbNumTs, false⟩) now30 300 =
      some (.error .attributeError) := by decide

/-- C2 (amended): for every work unit whose liveness record is well formed —
its `timestamp` entry, when truthy, is a string that parses in the heartbeat
writer's own interchange format to an aware timestamp, or is certainly
unparsable (leading non-digit, rejected by every supported Python) — the
health check returns a classification, and it classifies the unit as a
zombie exactly when its status is in-progress and (its workspace does not
exist or it is not alive), where alive means a record with an age below the
threshold, a stale record is not alive, and an absent or unreadable record
falls back to the process-working-directory check.  Outside this set the
check can raise instead of classifying (see the counterexample) or depends
on parser breadth beyond the modelled fragment, on which the model asserts
nothing. -/
theorem c2_zombie_amended (task : BdTask) (wt : Option WorktreeEnv) (now : DateTime)
    (threshold : Int) (hwf : wellFormedWt wt = true) :
    ∃ h : TaskHealth, checkTask task wt now threshold = some (.ok h) ∧
      h.is_zombie = claimZombie task wt now threshold := by
  cases wt with
  | none =>
      refine ⟨_, rfl, ?_⟩
      simp [claimZombie]
  | some w =>
      have hw : wellFormedHb w.heartbeat = true := by simpa [wellFormedWt] using hwf
      obtain ⟨la, hcb⟩ := checkHeartbeat_wf w.heartbeat w.procRunning now threshold hw
      have e : checkTask task (some w) now threshold =
          (match checkHeartbeat w.heartbeat w.procRunning now threshold with
           | none => none
           | some (.error er) => some (.error er)
           | some (.ok (is_alive, last_activity)) =>
               some (.ok { issue_id := task.id, status := task.status,
                           assignee := task.assignee, worktree_path := some w.path,
                           worktree_exists := true,
                           is_zombie := task.status == "in_progress" &&
                             (!true || !is_alive),
                           last_activity := last_activity })) := rfl
      refine ⟨{ issue_id := task.id, status := task.status, assignee := task.assignee,
                worktree_path := some w.path, worktree_exists := true,
                is_zombie := task.status == "in_progress" &&
                  (!true || !(match recordAge w.heartbeat now with
                              | some age => decide (age < threshold * 1000000)
                              | none => w.procRunning)),
                last_activity := la }, ?_, ?_⟩
      · rw [e, hcb]
      · simp [claimZombie, claimAlive]

/-- Witness for C2 at the spec's own example: in-progress task, workspace
present, liveness age 30 s against a 300 s threshold, hence not a zombie. -/
theorem c2_zombie_amended_witness :
    wellFormedWt (some wtGood) = true ∧
    (∃ h, checkTask taskGood (some wtGood) now30 300 = some (.ok h) ∧
       h.is_zombie = claimZombie taskGood (some wtGood) now30 300) ∧
    claimZombie taskGood (some wtGood) now30 300 = false :=
  ⟨by decide, c2_zombie_amended taskGood (some wtGood) now30 300 (by decide), by decide⟩

theorem dispatchList_failfast (exec : PluginConfig → PluginResult)
    (post : List PluginConfig) (pk : PluginConfig)
    (hb : pk.blocking = true) (hf : (exec pk).success = false) :
    ∀ pre : List PluginConfig, (∀ p ∈ pre, p.blocking = true → (exec p).success = true) →
      dispatchList exec (pre ++ pk :: post) =
        (preResults exec pre ++ [exec pk], preTrace pre ++ [.runSync pk.name]) := by
  intro pre
  induction pre with
  | nil =>
      intro _
      simp [dispatchList, hb, hf, preResults, preTrace]
  | cons p ps ih =>
      intro hp
      have hps : ∀ q ∈ ps, q.blocking = true → (exec q).success = true :=
        fun q hq => hp q (List.mem_cons_of_mem _ hq)
      by_cases hpb : p.blocking = true
      · have hsucc := hp p (List.mem_cons_self _ _) hpb
        simp [dispatchList, hpb, hsucc, ih hps, preResults, preTrace]
      · simp only [Bool.not_eq_true] at hpb
        simp [dispatchList, hpb, ih hps, preResults, preTrace]

/-- C3: when the plugins matched for an event are some prefix, then a failing
blocking plugin `pk`, then anything else — with every blocking plugin of the
prefix succeeding — `dispatch` runs the matched plugins in configuration
order up to and including `pk`, its result list ends with `pk`'s failed
result, and nothing after `pk` is executed or even spawned (the trace stops
at `pk`). -/
theorem c3_blocking_failfast (exec : PluginConfig → PluginResult) (cfg : Config)
    (ev : Event) (pre post : List PluginConfig) (pk : PluginConfig)
    (hm : cfg.get_plugins_for_event ev.event_type.value = pre ++ pk :: post)
    (hb : pk.blocking = true) (hf : (exec pk).success = false)
    (hp : ∀ p ∈ pre, p.blocking = true → (exec p).success = true) :
    dispatch exec cfg ev =
      (preResults exec pre ++ [exec pk], preTrace pre ++ [.runSync pk.name]) ∧
    (dispatch exec cfg ev).1.getLast? = some (exec pk) := by
  have h1 : dispatch exec cfg ev =
      (preResults exec pre ++ [exec pk], preTrace pre ++ [.runSync pk.name]) := by
    rw [dispatch, hm]
    exact dispatchList_failfast exec post pk hb hf pre hp
  refine ⟨h1, ?_⟩
  rw [h1]
  simp

/-- Witness for C3: two blocking subscriptions where the first fails —
dispatch returns exactly one result (the failure) and the second is never
run. -/
theorem c3_blocking_failfast_witness :
    dispatch execW cfgTwoBlocking evMerged = ([execW p1fail], [.runSync p1fail.name]) ∧
    (dispatch execW cfgTwoBlocking evMerged).1.getLast? = some (execW p1fail) :=
  c3_blocking_failfast execW cfgTwoBlocking evMerged [] [p2block] p1fail rfl rfl rfl
    (by simp)

theorem dispatchList_placeholder (exec : PluginConfig → PluginResult)
    (post : List PluginConfig) (p : PluginConfig) (hnb : p.blocking = false) :
    ∀ pre : List PluginConfig, (∀ q ∈ pre, q.blocking = true → (exec q).success = true) →
      dispatchList exec (pre ++ p :: post) =
        (preResults exec pre ++ placeholderResult p :: (dispatchList exec post).1,
         preTrace pre ++ .spawnAsync p.name :: (dispatchList exec post).2) := by
  intro pre
  induction pre with
  | nil =>
      intro _
      simp [dispatchList, hnb, preResults, preTrace]
  | cons q qs ih =>
      intro hp
      have hqs : ∀ x ∈ qs, x.blocking = true → (exec x).success = true :=
        fun x hx => hp x (List.mem_cons_of_mem _ hx)
      by_cases hqb : q.blocking = true
      · have hsucc := hp q (List.mem_cons_self _ _) hqb
        simp [dispatchList, hqb, hsucc, ih hqs, preResults, preTrace]
      · simp only [Bool.not_eq_true] at hqb
        simp [dispatchList, hqb, ih hqs, preResults, preTrace]

/-- C4: whenever dispatch reaches a matched non-blocking subscription (every
blocking subscription before it succeeded), it appends — for any outcome
oracle, i.e. regardless of the background execution's real result — the
synthetic placeholder with success true and the marker output; and for one
successful blocking plus one non-blocking subscription the loop returns
exactly two results: the blocking result and the placeholder. -/
theorem c4_nonblocking_placeholder (exec : PluginConfig → PluginResult) (cfg : Config)
    (ev : Event) (pre post : List PluginConfig) (p : PluginConfig)
    (hm : cfg.get_plugins_for_event ev.event_type.value = pre ++ p :: post)
    (hnb : p.blocking = false)
    (hp : ∀ q ∈ pre, q.blocking = true → (exec q).success = true) :
    (dispatch exec cfg ev).1 =
      preResults exec pre ++ placeholderResult p :: (dispatchList exec post).1 ∧
    (placeholderResult p).success = true ∧
    (placeholderResult p).output = some "(Async execution started)" ∧
    (∀ p1 p2 : PluginConfig, p1.blocking = true → p2.blocking = false →
      (exec p1).success = true →
      dispatchList exec [p1, p2] =
        ([exec p1, placeholderResult p2], [.runSync p1.name, .spawnAsync p2.name])) := by
  refine ⟨?_, rfl, rfl, ?_⟩
  · rw [dispatch, hm, dispatchList_placeholder exec post p hnb pre hp]
  · intro p1 p2 h1 h2 hs
    simp [dispatchList, h1, h2, hs]

/-- Witness for C4: one successful blocking plus one non-blocking
subscription yields exactly two results, the second being the immediate
placeholder. -/
theorem c4_nonblocking_placeholder_witness :
    (dispatch execW cfgMixed evCompleted).1 = [execW pOk, placeholderResult pAsync] ∧
    (placeholderResult pAsync).success = true ∧
    (placeholderResult pAsync).output = some "(Async execution started)" ∧
    dispatchList execW [pOk, pAsync] =
      ([execW pOk, placeholderResult pAsync],
       [.runSync pOk.name, .spawnAsync pAsync.name]) := by
  have h := c4_nonblocking_placeholder execW cfgMixed evCompleted [pOk] [] pAsync rfl rfl
    (by simp [pOk, execW])
  exact ⟨by simpa using h.1, h.2.1, h.2.2.1, h.2.2.2 pOk pAsync rfl rfl (by simp [pOk, execW])⟩

/-- C8: evaluation at a concrete zombie with an assignee.  `_handle_zombie`
emits the `health.zombie` event, and with auto-recovery on it runs exactly
`bd update ta-1 --status open` — the command carries no `--assignee` flag, so
the assignee is not cleared (contrast `agent.unclaim_issue`, which passes
`--assignee ""`), contradicting the claim's "clears its assignee". -/
theorem c8_recover_keeps_assignee :
    (handleZombie ⟨300, true⟩ zombieHealth).1 =
      { event_type := .health_zombie, issue_id := some "ta-1", worktree := none,
        extra := [("worktree_exists", "false")] } ∧
    (handleZombie ⟨300, true⟩ zombieHealth).2 = [["bd", "update", "ta-1", "--status", "open"]] ∧
    "--assignee" ∉ recoverZombieCmd "ta-1" ∧
    recoverZombieCmd "ta-1" ≠ unclaimCmd "ta-1" := by decide

end Tambour
